import Mathlib

/-!
# Reconciliation logic of the ClickHouse service resource

Shallow embedding of `src/clickhouse/service.go` (`serviceResource.Update`,
the merge loop shared with `serviceResource.Create`) together with the
keyed set difference used on the access rules.

Conventions of the embedding
* `types.String`, `types.Bool`, `types.Int64` are three-state values
  (null, unknown, known); Go `!=` on them is structural inequality.
* `int` and `int64` are both 64 bit wide on the supported platforms and no
  arithmetic is performed on them, so they are embedded as `Int`.
* A `*Service` is an `Option Service`; dereferencing `none` is a Go panic.
* The remote client is a pair of total functions returning either an
  error message or a snapshot; the sequence of remote calls is recorded.
* `time.Now().Format(time.RFC850)` is the parameter `now`.
-/

namespace Clickhouse

/-! ## Data model -/

/-- Three-state attribute value of the plugin framework. -/
inductive TfValue (α : Type) where
  | null
  | unknown
  | known (v : α)
  deriving DecidableEq, Repr

/-- Method `ValueString`: the known value, the empty string otherwise. -/
def TfValue.ValueString : TfValue String → String
  | .known v => v
  | _ => ""

/-- Method `ValueBool`: the known value, `false` otherwise. -/
def TfValue.ValueBool : TfValue Bool → Bool
  | .known v => v
  | _ => false

/-- Method `ValueInt64`: the known value, `0` otherwise. -/
def TfValue.ValueInt64 : TfValue Int → Int
  | .known v => v
  | _ => 0

/-- Struct `IpAccessModel` (service.go:43). -/
structure IpAccessModel where
  Source : TfValue String
  Description : TfValue String
  deriving DecidableEq, Repr

/-- Struct `serviceResourceModel` (service.go:29). -/
structure serviceResourceModel where
  ID : TfValue String
  Name : TfValue String
  CloudProvider : TfValue String
  Region : TfValue String
  Tier : TfValue String
  IdleScaling : TfValue Bool
  IpAccessList : List IpAccessModel
  MinTotalMemoryGb : TfValue Int
  MaxTotalMemoryGb : TfValue Int
  IdleTimeoutMinutes : TfValue Int
  LastUpdated : TfValue String
  deriving DecidableEq, Repr

/-- Transport struct `IpAccess`, with the fields service.go reads and writes. -/
structure IpAccess where
  Source : String
  Description : String
  deriving DecidableEq, Repr

/-- Transport struct `Service`, with the fields service.go reads and writes. -/
structure Service where
  Id : String
  Name : String
  Provider : String
  Region : String
  Tier : String
  IdleScaling : Bool
  IpAccessList : List IpAccess
  MinTotalMemoryGb : Int
  MaxTotalMemoryGb : Int
  IdleTimeoutMinutes : Int
  deriving DecidableEq, Repr

/-- Modelled from the spec: the declaration of `IpAccessUpdate` is not under
src/; the spec describes the access-rule delta as a list of added rules and a
list of removed source keys. -/
structure IpAccessUpdate where
  Add : List IpAccess
  Remove : List String
  deriving DecidableEq, Repr

/-- Transport struct `ServiceUpdate` as built at service.go:251; the pointer
field is an `Option`. -/
structure ServiceUpdate where
  Name : String
  IpAccessList : Option IpAccessUpdate
  deriving DecidableEq, Repr

/-- Transport struct `ServiceScalingUpdate` as built at service.go:312; the
`*bool` field is an `Option`, the integers have zero value `0`. -/
structure ServiceScalingUpdate where
  IdleScaling : Option Bool
  MinTotalMemoryGb : Int
  MaxTotalMemoryGb : Int
  IdleTimeoutMinutes : Int
  deriving DecidableEq, Repr

/-! ## Diagnostics of the plugin framework -/

/-- Severity of a diagnostic. -/
inductive Severity where
  | Error
  | Warning
  deriving DecidableEq, Repr

/-- One diagnostic: severity, optional attribute path, summary and detail. -/
structure Diagnostic where
  severity : Severity
  path : Option String
  summary : String
  detail : String
  deriving DecidableEq, Repr

/-- Collection method `Append` of the framework: every incoming diagnostic that
is not yet contained in the collection is added at the end. -/
def Append (diags : List Diagnostic) (incoming : List Diagnostic) : List Diagnostic :=
  incoming.foldl (fun acc d => if d ∈ acc then acc else acc ++ [d]) diags

/-- Collection method `AddAttributeError`: appends an error bound to `path.Root attr`. -/
def AddAttributeError (diags : List Diagnostic) (attr summary detail : String) :
    List Diagnostic :=
  Append diags [{ severity := .Error, path := some attr, summary := summary, detail := detail }]

/-- Collection method `AddError`: appends an error without a path. -/
def AddError (diags : List Diagnostic) (summary detail : String) : List Diagnostic :=
  Append diags [{ severity := .Error, path := none, summary := summary, detail := detail }]

/-- Collection method `HasError`: some diagnostic has error severity. -/
def HasError (diags : List Diagnostic) : Bool :=
  diags.any (fun d => decide (d.severity = Severity.Error))

/-! ## Keyed set difference -/

/-- Modelled from the spec: the helper `diffArrays` (called at service.go:287)
is not under src/. Per the spec, `added` are the items of the new sequence
whose key is absent from the old sequence, in the order of the new sequence,
and `removed` are the keys of the old sequence that are absent from the new
sequence, in the order of the old sequence. -/
def diffArrays {α : Type} (old new : List α) (key : α → String) : List α × List String :=
  (new.filter (fun x => decide (key x ∉ old.map key)),
   (old.map key).filter (fun k => decide (k ∉ new.map key)))

/-- Modelled from the spec: applying a delta to the old collection, adding the
added items and then removing by key. -/
def applyDelta {α : Type} (old : List α) (key : α → String)
    (added : List α) (removed : List String) : List α :=
  (old ++ added).filter (fun x => decide (key x ∉ removed))

/-- Modelled from the spec: the helper `equal` (called at service.go:261) is
not under src/. Per the spec, two access-rule lists are equivalent iff they
hold the same set of sources with the same descriptions, regardless of
sequence. -/
def equal (a b : List IpAccessModel) : Bool :=
  a.all (fun x => decide (x ∈ b)) && b.all (fun x => decide (x ∈ a))

/-! ## The remote client and the observable run of `Update` -/

/-- The two remote operations `Update` consumes and the one `Create` consumes.
An error carries the text of `err.Error()`; a success carries the snapshot
(a call answers with exactly one of the two). -/
structure Client where
  CreateService : Service → Except String Service
  UpdateService : String → ServiceUpdate → Except String Service
  UpdateServiceScaling : String → ServiceScalingUpdate → Except String Service

/-- A remote call issued by `Update`, with its arguments. -/
inductive Call where
  | UpdateService (serviceId : String) (service : ServiceUpdate)
  | UpdateServiceScaling (serviceId : String) (serviceScaling : ServiceScalingUpdate)
  deriving DecidableEq, Repr

/-- Run-time faults of the Go code. -/
inductive Fault where
  | nilPointerDereference
  | indexOutOfRange
  deriving DecidableEq, Repr

/-- What a run of `Update` leaves behind: the remote calls in order, the
diagnostics of the response, the model handed to `resp.State.Set` (if it was
called), and the fault if the run did not return normally. -/
structure UpdateRun where
  calls : List Call
  Diagnostics : List Diagnostic
  State : Option serviceResourceModel
  fault : Option Fault
  deriving DecidableEq, Repr

/-! ## `serviceResource.Update` -/

/-- Immutable-field checks, service.go:221-243. -/
def immutableChecks (diags : List Diagnostic) (plan state : serviceResourceModel) :
    List Diagnostic :=
  let d1 := if plan.CloudProvider ≠ state.CloudProvider then
      AddAttributeError diags "cloud_provider" "Invalid Update"
        "ClickHouse does not support changing service cloud providers"
    else diags
  let d2 := if plan.Region ≠ state.Region then
      AddAttributeError d1 "region" "Invalid Update"
        "ClickHouse does not support changing service regions"
    else d1
  if plan.Tier ≠ state.Tier then
    AddAttributeError d2 "tier" "Invalid Update"
      "ClickHouse does not support changing service tiers"
  else d2

/-- Conversion loops of service.go:269-285. -/
def toIpAccess (item : IpAccessModel) : IpAccess :=
  { Source := item.Source.ValueString, Description := item.Description.ValueString }

/-- Identity request and the flag `serviceChange`, service.go:251-295. -/
def serviceUpdateOf (equal : List IpAccessModel → List IpAccessModel → Bool)
    (plan state : serviceResourceModel) : ServiceUpdate × Bool :=
  let service : ServiceUpdate := { Name := "", IpAccessList := none }
  let serviceChange := false
  let (service, serviceChange) :=
    if plan.Name ≠ state.Name then
      ({ service with Name := plan.Name.ValueString }, true)
    else (service, serviceChange)
  if !equal plan.IpAccessList state.IpAccessList then
    let ipAccessListOld := state.IpAccessList.map toIpAccess
    let ipAccessListNew := plan.IpAccessList.map toIpAccess
    let (add, remove) := diffArrays ipAccessListOld ipAccessListNew (fun a => a.Source)
    ({ service with IpAccessList := some { Add := add, Remove := remove } }, true)
  else (service, serviceChange)

/-- Scaling request and the flag `scalingChange`, service.go:311-331. -/
def scalingUpdateOf (plan state : serviceResourceModel) : ServiceScalingUpdate × Bool :=
  let serviceScaling : ServiceScalingUpdate :=
    { IdleScaling := none, MinTotalMemoryGb := 0, MaxTotalMemoryGb := 0, IdleTimeoutMinutes := 0 }
  let scalingChange := false
  let (serviceScaling, scalingChange) :=
    if plan.IdleScaling ≠ state.IdleScaling then
      ({ serviceScaling with IdleScaling := some plan.IdleScaling.ValueBool }, true)
    else (serviceScaling, scalingChange)
  let (serviceScaling, scalingChange) :=
    if plan.MinTotalMemoryGb ≠ state.MinTotalMemoryGb then
      ({ serviceScaling with MinTotalMemoryGb := plan.MinTotalMemoryGb.ValueInt64 }, true)
    else (serviceScaling, scalingChange)
  let (serviceScaling, scalingChange) :=
    if plan.MaxTotalMemoryGb ≠ state.MaxTotalMemoryGb then
      ({ serviceScaling with MaxTotalMemoryGb := plan.MaxTotalMemoryGb.ValueInt64 }, true)
    else (serviceScaling, scalingChange)
  if plan.IdleTimeoutMinutes ≠ state.IdleTimeoutMinutes then
    ({ serviceScaling with IdleTimeoutMinutes := plan.IdleTimeoutMinutes.ValueInt64 }, true)
  else (serviceScaling, scalingChange)

/-- Model entry written by the merge loop for one snapshot rule. -/
def toIpAccessModel (ipAccess : IpAccess) : IpAccessModel :=
  { Source := .known ipAccess.Source, Description := .known ipAccess.Description }

/-- The merge loop of service.go:359-364 (and 161-166), started at index
`ipAccessIndex`: each snapshot rule overwrites the plan entry at its index;
an index outside the plan list is a Go panic (`none`). -/
def mergeFrom (planList : List IpAccessModel) :
    List IpAccess → Nat → Option (List IpAccessModel)
  | [], _ => some planList
  | ipAccess :: rest, ipAccessIndex =>
    if ipAccessIndex < planList.length then
      mergeFrom (planList.set ipAccessIndex (toIpAccessModel ipAccess)) rest (ipAccessIndex + 1)
    else none

/-- The merge loop over the whole snapshot list. -/
def mergeIpAccessList (planList : List IpAccessModel) (sList : List IpAccess) :
    Option (List IpAccessModel) :=
  mergeFrom planList sList 0

/-- The plan after service.go:350-365 (and 152-167), given the merged list. -/
def mergedModel (s : Service) (merged : List IpAccessModel) (now : String) :
    serviceResourceModel :=
  { ID := .known s.Id
    Name := .known s.Name
    CloudProvider := .known s.Provider
    Region := .known s.Region
    Tier := .known s.Tier
    IdleScaling := .known s.IdleScaling
    IpAccessList := merged
    MinTotalMemoryGb := .known s.MinTotalMemoryGb
    MaxTotalMemoryGb := .known s.MaxTotalMemoryGb
    IdleTimeoutMinutes := .known s.IdleTimeoutMinutes
    LastUpdated := .known now }

/-- Lines service.go:349-371: the snapshot pointer `s` is dereferenced, the
snapshot is merged into the plan and the plan is stored as the state
(`resp.State.Set` stores a model of the schema type without diagnostics). -/
def storeSnapshot (now : String) (plan : serviceResourceModel) (calls : List Call)
    (diags : List Diagnostic) (s : Option Service) : UpdateRun :=
  match s with
  | none =>
    { calls := calls, Diagnostics := diags, State := none,
      fault := some .nilPointerDereference }
  | some s =>
    match mergeIpAccessList plan.IpAccessList s.IpAccessList with
    | none =>
      { calls := calls, Diagnostics := diags, State := none,
        fault := some .indexOutOfRange }
    | some merged =>
      { calls := calls, Diagnostics := diags,
        State := some (mergedModel s merged now), fault := none }

/-- Lines service.go:311-371: the scaling category, then the merge. -/
def scalingStep (client : Client) (now : String) (plan state : serviceResourceModel)
    (calls : List Call) (diags : List Diagnostic) (s : Option Service) : UpdateRun :=
  let serviceId := state.ID.ValueString
  let serviceScaling := (scalingUpdateOf plan state).1
  let scalingChange := (scalingUpdateOf plan state).2
  if scalingChange then
    match client.UpdateServiceScaling serviceId serviceScaling with
    | .error err =>
      { calls := calls ++ [.UpdateServiceScaling serviceId serviceScaling],
        Diagnostics := AddError diags "Error Updating ClickHouse Service Scaling"
          ("Could not update service scaling, unexpected error: " ++ err),
        State := none, fault := none }
    | .ok s2 =>
      storeSnapshot now plan (calls ++ [.UpdateServiceScaling serviceId serviceScaling])
        diags (some s2)
  else storeSnapshot now plan calls diags s

/-- Method `serviceResource.Update`, service.go:214-372. `stateDiags` are the
diagnostics of `req.State.Get` (those of `req.Plan.Get` are overwritten at
line 218 and never reach the response). -/
def Update (equal : List IpAccessModel → List IpAccessModel → Bool) (client : Client)
    (now : String) (stateDiags : List Diagnostic) (plan state : serviceResourceModel) :
    UpdateRun :=
  let diags := immutableChecks (Append [] stateDiags) plan state
  if HasError diags then
    { calls := [], Diagnostics := diags, State := none, fault := none }
  else
    let serviceId := state.ID.ValueString
    let service := (serviceUpdateOf equal plan state).1
    let serviceChange := (serviceUpdateOf equal plan state).2
    if serviceChange then
      match client.UpdateService serviceId service with
      | .error err =>
        { calls := [.UpdateService serviceId service],
          Diagnostics := AddError diags "Error Updating ClickHouse Service"
            ("Could not update service, unexpected error: " ++ err),
          State := none, fault := none }
      | .ok s1 =>
        scalingStep client now plan state [.UpdateService serviceId service] diags (some s1)
    else scalingStep client now plan state [] diags none

/-- The diagnostics of a response whose summary is `Invalid Update`. -/
def invalidUpdates (diags : List Diagnostic) : List Diagnostic :=
  diags.filter (fun d => decide (d.summary = "Invalid Update"))

/-! ## `serviceResource.Create` -/

/-- What a run of `Create` leaves behind. -/
structure CreateRun where
  calls : List Service
  Diagnostics : List Diagnostic
  State : Option serviceResourceModel
  fault : Option Fault
  deriving DecidableEq, Repr

/-- Method `serviceResource.Create`, service.go:114-175. `planDiags` are the
diagnostics of `req.Plan.Get`; the request leaves `Id` at its zero value. -/
def Create (client : Client) (now : String) (planDiags : List Diagnostic)
    (plan : serviceResourceModel) : CreateRun :=
  let diags := Append [] planDiags
  if HasError diags then
    { calls := [], Diagnostics := diags, State := none, fault := none }
  else
    let service : Service :=
      { Id := ""
        Name := plan.Name.ValueString
        Provider := plan.CloudProvider.ValueString
        Region := plan.Region.ValueString
        Tier := plan.Tier.ValueString
        IdleScaling := plan.IdleScaling.ValueBool
        IpAccessList := plan.IpAccessList.map toIpAccess
        MinTotalMemoryGb := plan.MinTotalMemoryGb.ValueInt64
        MaxTotalMemoryGb := plan.MaxTotalMemoryGb.ValueInt64
        IdleTimeoutMinutes := plan.IdleTimeoutMinutes.ValueInt64 }
    match client.CreateService service with
    | .error err =>
      { calls := [service],
        Diagnostics := AddError diags "Error creating service"
          ("Could not create service, unexpected error: " ++ err),
        State := none, fault := none }
    | .ok s =>
      match mergeIpAccessList plan.IpAccessList s.IpAccessList with
      | none =>
        { calls := [service], Diagnostics := diags, State := none,
          fault := some .indexOutOfRange }
      | some merged =>
        { calls := [service], Diagnostics := diags,
          State := some (mergedModel s merged now), fault := none }

/-! ## Sample inputs -/

/-- An observed configuration with two access rules. -/
def sampleState : serviceResourceModel :=
  { ID := .known "svc-1"
    Name := .known "svc-old"
    CloudProvider := .known "aws"
    Region := .known "us-east-1"
    Tier := .known "production"
    IdleScaling := .known true
    IpAccessList :=
      [{ Source := .known "1.2.3.0/24", Description := .known "office" },
       { Source := .known "9.9.9.9/32", Description := .known "dns" }]
    MinTotalMemoryGb := .known 24
    MaxTotalMemoryGb := .known 48
    IdleTimeoutMinutes := .known 5
    LastUpdated := .known "Monday, 02-Jan-06 15:04:05 UTC" }

/-- A desired configuration: new name, one rule dropped, more memory. -/
def samplePlan : serviceResourceModel :=
  { sampleState with
    Name := .known "svc"
    IpAccessList := [{ Source := .known "1.2.3.0/24", Description := .known "office" }]
    MinTotalMemoryGb := .known 32 }

/-- The sample plan with the tier changed as well. -/
def samplePlanRetiered : serviceResourceModel :=
  { samplePlan with Tier := .known "development" }

/-- The sample plan with provider, region and tier all changed. -/
def samplePlanMoved : serviceResourceModel :=
  { samplePlan with
    CloudProvider := .known "gcp"
    Region := .known "europe-west4"
    Tier := .known "development" }

/-- The observed configuration with only the description of one rule edited. -/
def samplePlanRelabelled : serviceResourceModel :=
  { sampleState with
    IpAccessList :=
      [{ Source := .known "1.2.3.0/24", Description := .known "headquarters" },
       { Source := .known "9.9.9.9/32", Description := .known "dns" }] }

/-- The relabelled plan with more memory as well. -/
def samplePlanRelabelledResized : serviceResourceModel :=
  { samplePlanRelabelled with MinTotalMemoryGb := .known 32 }

/-- Snapshot returned by the identity call of the sample clients. -/
def sampleSnapshot1 : Service :=
  { Id := "svc-1", Name := "svc", Provider := "aws", Region := "us-east-1",
    Tier := "production", IdleScaling := true,
    IpAccessList := [{ Source := "1.2.3.0/24", Description := "office" }],
    MinTotalMemoryGb := 24, MaxTotalMemoryGb := 48, IdleTimeoutMinutes := 5 }

/-- Snapshot returned by the scaling call of the sample clients. -/
def sampleSnapshot2 : Service :=
  { sampleSnapshot1 with Id := "svc-1-resized", MinTotalMemoryGb := 32 }

/-- A client whose calls all succeed. -/
def clientOk : Client :=
  { CreateService := fun s => .ok s
    UpdateService := fun _ _ => .ok sampleSnapshot1
    UpdateServiceScaling := fun _ _ => .ok sampleSnapshot2 }

/-- A client whose scaling call fails. -/
def clientScalingDown : Client :=
  { clientOk with UpdateServiceScaling := fun _ _ => .error "503" }

/-- A snapshot whose single rule differs from every rule of the sample inputs. -/
def sampleSnapshotVpn : Service :=
  { sampleSnapshot1 with
    Name := "svc-old"
    IpAccessList := [{ Source := "10.0.0.0/8", Description := "vpn" }] }

/-- A client that answers every call with the snapshot `sampleSnapshotVpn`. -/
def clientVpn : Client :=
  { CreateService := fun _ => .ok sampleSnapshotVpn
    UpdateService := fun _ _ => .ok sampleSnapshotVpn
    UpdateServiceScaling := fun _ _ => .ok sampleSnapshotVpn }

/-- A client whose identity call fails. -/
def clientIdentityDown : Client :=
  { clientOk with UpdateService := fun _ _ => .error "503" }

/-! ## Lemmas on diagnostics -/

theorem Append_single (diags : List Diagnostic) (d : Diagnostic) :
    Append diags [d] = if d ∈ diags then diags else diags ++ [d] := rfl

theorem mem_Append_self (diags : List Diagnostic) (d : Diagnostic) :
    d ∈ Append diags [d] := by
  rw [Append_single]
  split <;> simp_all

theorem mem_Append_of_mem {diags : List Diagnostic} {d e : Diagnostic} (h : e ∈ diags) :
    e ∈ Append diags [d] := by
  rw [Append_single]
  split <;> simp_all

theorem mem_Append_single_iff (diags : List Diagnostic) (d e : Diagnostic) :
    e ∈ Append diags [d] ↔ e ∈ diags ∨ e = d := by
  rw [Append_single]
  split
  · constructor
    · intro h; exact Or.inl h
    · rintro (h | h)
      · exact h
      · subst h; assumption
  · simp

theorem mem_foldl_Append (incoming : List Diagnostic) :
    ∀ (diags : List Diagnostic) (e : Diagnostic),
      e ∈ Append diags incoming ↔ e ∈ diags ∨ e ∈ incoming := by
  induction incoming with
  | nil => intro diags e; simp [Append]
  | cons d rest ih =>
    intro diags e
    have step : Append diags (d :: rest) = Append (Append diags [d]) rest := rfl
    rw [step, ih, mem_Append_single_iff]
    simp only [List.mem_cons]
    tauto

theorem HasError_iff (diags : List Diagnostic) :
    HasError diags = true ↔ ∃ d ∈ diags, d.severity = Severity.Error := by
  simp [HasError]

theorem HasError_Append_of_error (diags : List Diagnostic) (d : Diagnostic)
    (h : d.severity = Severity.Error) : HasError (Append diags [d]) = true :=
  (HasError_iff _).2 ⟨d, mem_Append_self diags d, h⟩

theorem HasError_Append_mono (diags : List Diagnostic) (d : Diagnostic)
    (h : HasError diags = true) : HasError (Append diags [d]) = true := by
  obtain ⟨e, he, hs⟩ := (HasError_iff _).1 h
  exact (HasError_iff _).2 ⟨e, mem_Append_of_mem he, hs⟩

theorem HasError_immutableChecks (diags : List Diagnostic) (plan state : serviceResourceModel)
    (h : plan.CloudProvider ≠ state.CloudProvider ∨ plan.Region ≠ state.Region ∨
      plan.Tier ≠ state.Tier) : HasError (immutableChecks diags plan state) = true := by
  unfold immutableChecks
  by_cases ht : plan.Tier = state.Tier
  · by_cases hr : plan.Region = state.Region
    · have hc : plan.CloudProvider ≠ state.CloudProvider := by tauto
      simp only [ht, hr, hc, ne_eq, not_true_eq_false, not_false_eq_true, if_true, if_false]
      exact HasError_Append_of_error _ _ rfl
    · simp only [ht, hr, ne_eq, not_true_eq_false, not_false_eq_true, if_true, if_false]
      exact HasError_Append_of_error _ _ rfl
  · simp only [ht, ne_eq, not_false_eq_true, if_true]
    exact HasError_Append_of_error _ _ rfl

/-! ## Claims -/

/-- C1: in `Update`, whenever the plan and the state differ in at least one of
cloud_provider, region or tier, no remote call is made (neither UpdateService
nor UpdateServiceScaling), the state is not set, and the function returns
normally with an error recorded, whatever the other fields are. -/
theorem Update_immutable_violation_aborts
    (equal : List IpAccessModel → List IpAccessModel → Bool) (client : Client)
    (now : String) (stateDiags : List Diagnostic) (plan state : serviceResourceModel)
    (h : plan.CloudProvider ≠ state.CloudProvider ∨ plan.Region ≠ state.Region ∨
      plan.Tier ≠ state.Tier) :
    (Update equal client now stateDiags plan state).calls = [] ∧
    (Update equal client now stateDiags plan state).State = none ∧
    (Update equal client now stateDiags plan state).fault = none ∧
    HasError (Update equal client now stateDiags plan state).Diagnostics = true := by
  have he := HasError_immutableChecks (Append [] stateDiags) plan state h
  simp [Update, he]

/-! ### Immutable-field errors -/

theorem invalidUpdates_Append_other (diags : List Diagnostic) (d : Diagnostic)
    (h : d.summary ≠ "Invalid Update") :
    invalidUpdates (Append diags [d]) = invalidUpdates diags := by
  rw [Append_single]
  split
  · rfl
  · simp [invalidUpdates, List.filter_append, h]

theorem invalidUpdates_eq_nil {diags : List Diagnostic}
    (h : ∀ d ∈ diags, d.summary ≠ "Invalid Update") : invalidUpdates diags = [] := by
  simp only [invalidUpdates, List.filter_eq_nil_iff, decide_eq_true_eq]
  exact h

theorem immutableChecks_eq (diags : List Diagnostic) (plan state : serviceResourceModel)
    (h : ∀ d ∈ diags, d.summary ≠ "Invalid Update") :
    immutableChecks diags plan state =
      diags ++
      ((if plan.CloudProvider ≠ state.CloudProvider then
          [{ severity := .Error, path := some "cloud_provider", summary := "Invalid Update",
             detail := "ClickHouse does not support changing service cloud providers" }]
        else []) ++
       ((if plan.Region ≠ state.Region then
          [{ severity := .Error, path := some "region", summary := "Invalid Update",
             detail := "ClickHouse does not support changing service regions" }]
        else []) ++
        (if plan.Tier ≠ state.Tier then
          [{ severity := .Error, path := some "tier", summary := "Invalid Update",
             detail := "ClickHouse does not support changing service tiers" }]
        else []))) := by
  have h1 : ∀ (p dt : String),
      ({ severity := .Error, path := some p, summary := "Invalid Update", detail := dt } :
        Diagnostic) ∉ diags := fun p dt hm => h _ hm rfl
  unfold immutableChecks AddAttributeError
  by_cases hc : plan.CloudProvider = state.CloudProvider <;>
  by_cases hr : plan.Region = state.Region <;>
  by_cases ht : plan.Tier = state.Tier <;>
  simp [hc, hr, ht, Append_single, h1]

theorem storeSnapshot_Diagnostics (now : String) (plan : serviceResourceModel)
    (calls : List Call) (diags : List Diagnostic) (s : Option Service) :
    (storeSnapshot now plan calls diags s).Diagnostics = diags := by
  unfold storeSnapshot
  split
  · rfl
  · split <;> rfl

theorem storeSnapshot_calls (now : String) (plan : serviceResourceModel)
    (calls : List Call) (diags : List Diagnostic) (s : Option Service) :
    (storeSnapshot now plan calls diags s).calls = calls := by
  unfold storeSnapshot
  split
  · rfl
  · split <;> rfl

theorem scalingStep_invalidUpdates (client : Client) (now : String)
    (plan state : serviceResourceModel) (calls : List Call) (diags : List Diagnostic)
    (s : Option Service) :
    invalidUpdates (scalingStep client now plan state calls diags s).Diagnostics =
      invalidUpdates diags := by
  unfold scalingStep
  simp only
  split
  · split
    · exact invalidUpdates_Append_other _ _ (by simp)
    · rw [storeSnapshot_Diagnostics]
  · rw [storeSnapshot_Diagnostics]

theorem Update_Diagnostics_invalidUpdates
    (equal : List IpAccessModel → List IpAccessModel → Bool) (client : Client)
    (now : String) (stateDiags : List Diagnostic) (plan state : serviceResourceModel) :
    invalidUpdates (Update equal client now stateDiags plan state).Diagnostics =
      invalidUpdates (immutableChecks (Append [] stateDiags) plan state) := by
  unfold Update
  simp only
  split
  · rfl
  · split
    · split
      · exact invalidUpdates_Append_other _ _ (by simp)
      · rw [scalingStep_invalidUpdates]
    · rw [scalingStep_invalidUpdates]

/-- C2: the immutable-field checks of `Update` do not short-circuit. When the
diagnostics of decoding the state hold no `Invalid Update` entry, the
`Invalid Update` errors of the response are exactly one attribute error per
field among cloud_provider, region, tier whose plan value differs from the
state value, each attached to the path of that field, in this order; so their
number is the number of differing fields (3 when all differ, 0 when none). -/
theorem Update_invalid_update_errors
    (equal : List IpAccessModel → List IpAccessModel → Bool) (client : Client)
    (now : String) (stateDiags : List Diagnostic) (plan state : serviceResourceModel)
    (hclean : ∀ d ∈ stateDiags, d.summary ≠ "Invalid Update") :
    invalidUpdates (Update equal client now stateDiags plan state).Diagnostics =
      ((if plan.CloudProvider ≠ state.CloudProvider then
          [{ severity := .Error, path := some "cloud_provider", summary := "Invalid Update",
             detail := "ClickHouse does not support changing service cloud providers" }]
        else []) ++
       ((if plan.Region ≠ state.Region then
          [{ severity := .Error, path := some "region", summary := "Invalid Update",
             detail := "ClickHouse does not support changing service regions" }]
        else []) ++
        (if plan.Tier ≠ state.Tier then
          [{ severity := .Error, path := some "tier", summary := "Invalid Update",
             detail := "ClickHouse does not support changing service tiers" }]
        else []))) ∧
    (invalidUpdates (Update equal client now stateDiags plan state).Diagnostics).length =
      (if plan.CloudProvider ≠ state.CloudProvider then 1 else 0) +
      (if plan.Region ≠ state.Region then 1 else 0) +
      (if plan.Tier ≠ state.Tier then 1 else 0) := by
  have hd : ∀ d ∈ Append [] stateDiags, d.summary ≠ "Invalid Update" := by
    intro d hm
    rcases (mem_foldl_Append stateDiags [] d).1 hm with h | h
    · simp at h
    · exact hclean d h
  rw [Update_Diagnostics_invalidUpdates, immutableChecks_eq _ _ _ hd]
  have h0 := invalidUpdates_eq_nil hd
  by_cases hc : plan.CloudProvider = state.CloudProvider <;>
  by_cases hr : plan.Region = state.Region <;>
  by_cases ht : plan.Tier = state.Tier <;>
  simp [hc, hr, ht, invalidUpdates, List.filter_append] <;>
  simpa [invalidUpdates] using h0

/-! ### Shape of a run -/

theorem HasError_Append_nil (ds : List Diagnostic) : HasError (Append [] ds) = HasError ds := by
  rw [Bool.eq_iff_iff, HasError_iff, HasError_iff]
  constructor
  · rintro ⟨d, hm, hs⟩
    rcases (mem_foldl_Append ds [] d).1 hm with h | h
    · simp at h
    · exact ⟨d, h, hs⟩
  · rintro ⟨d, hm, hs⟩
    exact ⟨d, (mem_foldl_Append ds [] d).2 (Or.inr hm), hs⟩

theorem immutableChecks_same (diags : List Diagnostic) (plan state : serviceResourceModel)
    (hc : plan.CloudProvider = state.CloudProvider) (hr : plan.Region = state.Region)
    (ht : plan.Tier = state.Tier) : immutableChecks diags plan state = diags := by
  simp [immutableChecks, hc, hr, ht]

theorem AddError_of_clean (diags : List Diagnostic) (summary detail : String)
    (h : HasError diags = false) :
    AddError diags summary detail =
      diags ++ [{ severity := .Error, path := none, summary := summary, detail := detail }] := by
  unfold AddError
  rw [Append_single]
  split
  · rename_i hm
    have : HasError diags = true := (HasError_iff _).2 ⟨_, hm, rfl⟩
    rw [h] at this
    exact absurd this (by decide)
  · rfl

theorem scalingStep_calls (client : Client) (now : String)
    (plan state : serviceResourceModel) (calls : List Call) (diags : List Diagnostic)
    (s : Option Service) :
    (scalingStep client now plan state calls diags s).calls =
      if (scalingUpdateOf plan state).2 = true then
        calls ++ [Call.UpdateServiceScaling state.ID.ValueString (scalingUpdateOf plan state).1]
      else calls := by
  unfold scalingStep
  simp only
  split
  · split
    · rfl
    · rw [storeSnapshot_calls]
  · rw [storeSnapshot_calls]

theorem Update_of_error (equal : List IpAccessModel → List IpAccessModel → Bool)
    (client : Client) (now : String) (stateDiags : List Diagnostic)
    (plan state : serviceResourceModel)
    (h : HasError (immutableChecks (Append [] stateDiags) plan state) = true) :
    Update equal client now stateDiags plan state =
      { calls := [], Diagnostics := immutableChecks (Append [] stateDiags) plan state,
        State := none, fault := none } := by
  simp [Update, h]

theorem Update_of_identity_error (equal : List IpAccessModel → List IpAccessModel → Bool)
    (client : Client) (now : String) (stateDiags : List Diagnostic)
    (plan state : serviceResourceModel) (err : String)
    (h : HasError (immutableChecks (Append [] stateDiags) plan state) = false)
    (hs : (serviceUpdateOf equal plan state).2 = true)
    (he : client.UpdateService state.ID.ValueString (serviceUpdateOf equal plan state).1 =
      .error err) :
    Update equal client now stateDiags plan state =
      { calls := [.UpdateService state.ID.ValueString (serviceUpdateOf equal plan state).1],
        Diagnostics := AddError (immutableChecks (Append [] stateDiags) plan state)
          "Error Updating ClickHouse Service"
          ("Could not update service, unexpected error: " ++ err),
        State := none, fault := none } := by
  simp [Update, h, hs, he]

theorem Update_of_identity_ok (equal : List IpAccessModel → List IpAccessModel → Bool)
    (client : Client) (now : String) (stateDiags : List Diagnostic)
    (plan state : serviceResourceModel) (s1 : Service)
    (h : HasError (immutableChecks (Append [] stateDiags) plan state) = false)
    (hs : (serviceUpdateOf equal plan state).2 = true)
    (he : client.UpdateService state.ID.ValueString (serviceUpdateOf equal plan state).1 =
      .ok s1) :
    Update equal client now stateDiags plan state =
      scalingStep client now plan state
        [.UpdateService state.ID.ValueString (serviceUpdateOf equal plan state).1]
        (immutableChecks (Append [] stateDiags) plan state) (some s1) := by
  simp [Update, h, hs, he]

theorem Update_of_no_identity (equal : List IpAccessModel → List IpAccessModel → Bool)
    (client : Client) (now : String) (stateDiags : List Diagnostic)
    (plan state : serviceResourceModel)
    (h : HasError (immutableChecks (Append [] stateDiags) plan state) = false)
    (hs : (serviceUpdateOf equal plan state).2 = false) :
    Update equal client now stateDiags plan state =
      scalingStep client now plan state [] (immutableChecks (Append [] stateDiags) plan state)
        none := by
  simp [Update, h, hs]

theorem scalingStep_of_error (client : Client) (now : String)
    (plan state : serviceResourceModel) (calls : List Call) (diags : List Diagnostic)
    (s : Option Service) (err : String)
    (hs : (scalingUpdateOf plan state).2 = true)
    (he : client.UpdateServiceScaling state.ID.ValueString (scalingUpdateOf plan state).1 =
      .error err) :
    scalingStep client now plan state calls diags s =
      { calls := calls ++
          [.UpdateServiceScaling state.ID.ValueString (scalingUpdateOf plan state).1],
        Diagnostics := AddError diags "Error Updating ClickHouse Service Scaling"
          ("Could not update service scaling, unexpected error: " ++ err),
        State := none, fault := none } := by
  simp [scalingStep, hs, he]

theorem scalingStep_of_ok (client : Client) (now : String)
    (plan state : serviceResourceModel) (calls : List Call) (diags : List Diagnostic)
    (s : Option Service) (s2 : Service)
    (hs : (scalingUpdateOf plan state).2 = true)
    (he : client.UpdateServiceScaling state.ID.ValueString (scalingUpdateOf plan state).1 =
      .ok s2) :
    scalingStep client now plan state calls diags s =
      storeSnapshot now plan
        (calls ++ [.UpdateServiceScaling state.ID.ValueString (scalingUpdateOf plan state).1])
        diags (some s2) := by
  simp [scalingStep, hs, he]

theorem scalingStep_of_no_scaling (client : Client) (now : String)
    (plan state : serviceResourceModel) (calls : List Call) (diags : List Diagnostic)
    (s : Option Service) (hs : (scalingUpdateOf plan state).2 = false) :
    scalingStep client now plan state calls diags s = storeSnapshot now plan calls diags s := by
  simp [scalingStep, hs]

/-- Inversion: an identity call in the trace is the one built at lines 251-295,
issued after the immutable checks passed with `serviceChange` set. -/
theorem issued_UpdateService (equal : List IpAccessModel → List IpAccessModel → Bool)
    (client : Client) (now : String) (stateDiags : List Diagnostic)
    (plan state : serviceResourceModel) (serviceId : String) (service : ServiceUpdate)
    (h : Call.UpdateService serviceId service ∈
      (Update equal client now stateDiags plan state).calls) :
    HasError (immutableChecks (Append [] stateDiags) plan state) = false ∧
    (serviceUpdateOf equal plan state).2 = true ∧
    serviceId = state.ID.ValueString ∧ service = (serviceUpdateOf equal plan state).1 := by
  cases hE : HasError (immutableChecks (Append [] stateDiags) plan state) with
  | true => rw [Update_of_error _ _ _ _ _ _ hE] at h; simp at h
  | false =>
    cases hS : (serviceUpdateOf equal plan state).2 with
    | false =>
      rw [Update_of_no_identity _ _ _ _ _ _ hE hS, scalingStep_calls] at h
      split at h <;> simp at h
    | true =>
      refine ⟨rfl, rfl, ?_⟩
      cases hC : client.UpdateService state.ID.ValueString (serviceUpdateOf equal plan state).1 with
      | error err =>
        rw [Update_of_identity_error _ _ _ _ _ _ err hE hS hC] at h
        simpa using h
      | ok s1 =>
        rw [Update_of_identity_ok _ _ _ _ _ _ s1 hE hS hC, scalingStep_calls] at h
        split at h <;> simpa using h

/-- Inversion: a scaling call in the trace is the one built at lines 311-331,
issued after the immutable checks passed with `scalingChange` set. -/
theorem issued_UpdateServiceScaling (equal : List IpAccessModel → List IpAccessModel → Bool)
    (client : Client) (now : String) (stateDiags : List Diagnostic)
    (plan state : serviceResourceModel) (serviceId : String)
    (serviceScaling : ServiceScalingUpdate)
    (h : Call.UpdateServiceScaling serviceId serviceScaling ∈
      (Update equal client now stateDiags plan state).calls) :
    HasError (immutableChecks (Append [] stateDiags) plan state) = false ∧
    (scalingUpdateOf plan state).2 = true ∧
    serviceId = state.ID.ValueString ∧ serviceScaling = (scalingUpdateOf plan state).1 := by
  cases hE : HasError (immutableChecks (Append [] stateDiags) plan state) with
  | true => rw [Update_of_error _ _ _ _ _ _ hE] at h; simp at h
  | false =>
    refine ⟨rfl, ?_⟩
    cases hS : (serviceUpdateOf equal plan state).2 with
    | false =>
      rw [Update_of_no_identity _ _ _ _ _ _ hE hS, scalingStep_calls] at h
      split at h
      · rename_i hsc
        refine ⟨hsc, ?_⟩
        simpa using h
      · simp at h
    | true =>
      cases hC : client.UpdateService state.ID.ValueString (serviceUpdateOf equal plan state).1 with
      | error err =>
        rw [Update_of_identity_error _ _ _ _ _ _ err hE hS hC] at h
        simp at h
      | ok s1 =>
        rw [Update_of_identity_ok _ _ _ _ _ _ s1 hE hS hC, scalingStep_calls] at h
        split at h
        · rename_i hsc
          refine ⟨hsc, ?_⟩
          simpa using h
        · simp at h

/-- C6: in `Update`, whenever the identity call `UpdateService` is issued and
returns an error, it is the only remote call of the run, `UpdateServiceScaling`
is never called (whatever the scaling fields are), the response gains the error
`Error Updating ClickHouse Service`, whose summary differs from the one of a
scaling failure, the state is not set and the function returns. -/
theorem Update_identity_failure_stops
    (equal : List IpAccessModel → List IpAccessModel → Bool) (client : Client)
    (now : String) (stateDiags : List Diagnostic) (plan state : serviceResourceModel)
    (serviceId : String) (service : ServiceUpdate) (err : String)
    (hissued : Call.UpdateService serviceId service ∈
      (Update equal client now stateDiags plan state).calls)
    (hfail : client.UpdateService serviceId service = .error err) :
    (Update equal client now stateDiags plan state).calls =
      [Call.UpdateService serviceId service] ∧
    (∀ id v, Call.UpdateServiceScaling id v ∉
      (Update equal client now stateDiags plan state).calls) ∧
    (Update equal client now stateDiags plan state).Diagnostics =
      immutableChecks (Append [] stateDiags) plan state ++
        [{ severity := .Error, path := none, summary := "Error Updating ClickHouse Service",
           detail := "Could not update service, unexpected error: " ++ err }] ∧
    "Error Updating ClickHouse Service" ≠ "Error Updating ClickHouse Service Scaling" ∧
    (Update equal client now stateDiags plan state).State = none ∧
    (Update equal client now stateDiags plan state).fault = none := by
  obtain ⟨hE, hS, hid, hsv⟩ := issued_UpdateService _ _ _ _ _ _ _ _ hissued
  subst hid hsv
  rw [Update_of_identity_error _ _ _ _ _ _ err hE hS hfail, AddError_of_clean _ _ _ hE]
  refine ⟨rfl, ?_, rfl, by decide, rfl, rfl⟩
  intro id v hm
  simp at hm

/-- C4 (amended): in `Update`, when the identity call `UpdateService` succeeds
and the scaling call `UpdateServiceScaling` then fails, the run consists of
exactly these two calls in this order, the response gains the error
`Error Updating ClickHouse Service Scaling`, which identifies the scaling
category, and no snapshot is carried: the state is not set. -/
theorem Update_scaling_failure_after_identity
    (equal : List IpAccessModel → List IpAccessModel → Bool) (client : Client)
    (now : String) (stateDiags : List Diagnostic) (plan state : serviceResourceModel)
    (serviceId : String) (service : ServiceUpdate) (s1 : Service)
    (scalingId : String) (serviceScaling : ServiceScalingUpdate) (err : String)
    (hissued : Call.UpdateService serviceId service ∈
      (Update equal client now stateDiags plan state).calls)
    (hok : client.UpdateService serviceId service = .ok s1)
    (hissued2 : Call.UpdateServiceScaling scalingId serviceScaling ∈
      (Update equal client now stateDiags plan state).calls)
    (hfail : client.UpdateServiceScaling scalingId serviceScaling = .error err) :
    (Update equal client now stateDiags plan state).calls =
      [Call.UpdateService serviceId service,
       Call.UpdateServiceScaling scalingId serviceScaling] ∧
    (Update equal client now stateDiags plan state).Diagnostics =
      immutableChecks (Append [] stateDiags) plan state ++
        [{ severity := .Error, path := none,
           summary := "Error Updating ClickHouse Service Scaling",
           detail := "Could not update service scaling, unexpected error: " ++ err }] ∧
    (Update equal client now stateDiags plan state).State = none ∧
    (Update equal client now stateDiags plan state).fault = none := by
  obtain ⟨hE, hS, hid, hsv⟩ := issued_UpdateService _ _ _ _ _ _ _ _ hissued
  obtain ⟨_, hS2, hid2, hsv2⟩ := issued_UpdateServiceScaling _ _ _ _ _ _ _ _ hissued2
  subst hid hsv hid2 hsv2
  rw [Update_of_identity_ok _ _ _ _ _ _ s1 hE hS hok,
    scalingStep_of_error _ _ _ _ _ _ _ err hS2 hfail, AddError_of_clean _ _ _ hE]
  exact ⟨rfl, rfl, rfl, rfl⟩

/-! ### The two categories -/

theorem serviceChange_iff (equal : List IpAccessModel → List IpAccessModel → Bool)
    (plan state : serviceResourceModel) :
    (serviceUpdateOf equal plan state).2 = true ↔
      (plan.Name ≠ state.Name ∨ equal plan.IpAccessList state.IpAccessList = false) := by
  unfold serviceUpdateOf
  by_cases hn : plan.Name = state.Name <;>
  cases he : equal plan.IpAccessList state.IpAccessList <;>
  simp [hn, he]

theorem scalingChange_iff (plan state : serviceResourceModel) :
    (scalingUpdateOf plan state).2 = true ↔
      (plan.IdleScaling ≠ state.IdleScaling ∨
       plan.MinTotalMemoryGb ≠ state.MinTotalMemoryGb ∨
       plan.MaxTotalMemoryGb ≠ state.MaxTotalMemoryGb ∨
       plan.IdleTimeoutMinutes ≠ state.IdleTimeoutMinutes) := by
  unfold scalingUpdateOf
  by_cases h1 : plan.IdleScaling = state.IdleScaling <;>
  by_cases h2 : plan.MinTotalMemoryGb = state.MinTotalMemoryGb <;>
  by_cases h3 : plan.MaxTotalMemoryGb = state.MaxTotalMemoryGb <;>
  by_cases h4 : plan.IdleTimeoutMinutes = state.IdleTimeoutMinutes <;>
  simp [h1, h2, h3, h4]

theorem clean_of_same (stateDiags : List Diagnostic) (plan state : serviceResourceModel)
    (hdec : HasError stateDiags = false)
    (hc : plan.CloudProvider = state.CloudProvider) (hr : plan.Region = state.Region)
    (ht : plan.Tier = state.Tier) :
    HasError (immutableChecks (Append [] stateDiags) plan state) = false := by
  rw [immutableChecks_same _ _ _ hc hr ht, HasError_Append_nil, hdec]

/-! ### The merge loop -/

theorem mergeFrom_eq (sList : List IpAccess) :
    ∀ (planList : List IpAccessModel) (i : Nat), i + sList.length ≤ planList.length →
      mergeFrom planList sList i =
        some (planList.take i ++ sList.map toIpAccessModel ++
          planList.drop (i + sList.length)) := by
  induction sList with
  | nil => intro planList i _; simp [mergeFrom]
  | cons x xs ih =>
    intro planList i h
    have hi : i < planList.length := by simp at h; omega
    have hlen : i + 1 + xs.length ≤ (planList.set i (toIpAccessModel x)).length := by
      simp at h ⊢; omega
    rw [mergeFrom, if_pos hi, ih _ _ hlen]
    congr 1
    have h1 : (planList.set i (toIpAccessModel x)).take (i + 1) =
        planList.take i ++ [toIpAccessModel x] := by
      rw [List.take_succ, List.set_take]
      have : (List.take i planList).set i (toIpAccessModel x) = List.take i planList := by
        apply List.set_eq_of_length_le
        simp
      rw [this]
      simp [hi]
    have h2 : (planList.set i (toIpAccessModel x)).drop (i + 1 + xs.length) =
        planList.drop (i + 1 + xs.length) :=
      List.drop_set_of_lt _ _ (by omega)
    rw [h1, h2]
    simp [Nat.add_assoc, Nat.add_comm 1]

theorem mergeIpAccessList_eq (planList : List IpAccessModel) (sList : List IpAccess)
    (h : sList.length ≤ planList.length) :
    mergeIpAccessList planList sList =
      some (sList.map toIpAccessModel ++ planList.drop sList.length) := by
  unfold mergeIpAccessList
  rw [mergeFrom_eq sList planList 0 (by omega)]
  simp

/-- C10: when `Update` or `Create` merges a returned snapshot `s` whose rule
list has length `k` not greater than the length of the plan list, no index is
out of bounds, the first `k` entries of the list become the rules of the
snapshot (known source and known description of each rule) in the order of the
snapshot, the entries from index `k` on are those of the plan and the length is
unchanged. This merged list is the access list of the state stored by `Update`
(whether `s` comes from the scaling call or, without a scaling change, from the
identity call) and by `Create`, and neither run ends in a fault. -/
theorem Update_Create_merge_in_bounds
    (equal : List IpAccessModel → List IpAccessModel → Bool) (client : Client)
    (now : String) (stateDiags planDiags : List Diagnostic)
    (plan state : serviceResourceModel) (s : Service)
    (h : s.IpAccessList.length ≤ plan.IpAccessList.length) :
    ∃ merged,
      mergeIpAccessList plan.IpAccessList s.IpAccessList = some merged ∧
      merged.length = plan.IpAccessList.length ∧
      merged.take s.IpAccessList.length =
        s.IpAccessList.map (fun ipAccess : IpAccess =>
          ({ Source := .known ipAccess.Source,
             Description := .known ipAccess.Description } : IpAccessModel)) ∧
      merged.drop s.IpAccessList.length = plan.IpAccessList.drop s.IpAccessList.length ∧
      (HasError (immutableChecks (Append [] stateDiags) plan state) = false →
        ((serviceUpdateOf equal plan state).2 = false ∨
          ∃ s1, client.UpdateService state.ID.ValueString
            (serviceUpdateOf equal plan state).1 = .ok s1) →
        (scalingUpdateOf plan state).2 = true →
        client.UpdateServiceScaling state.ID.ValueString (scalingUpdateOf plan state).1 =
          .ok s →
        (Update equal client now stateDiags plan state).State =
          some { ID := .known s.Id, Name := .known s.Name,
                 CloudProvider := .known s.Provider, Region := .known s.Region,
                 Tier := .known s.Tier, IdleScaling := .known s.IdleScaling,
                 IpAccessList := merged,
                 MinTotalMemoryGb := .known s.MinTotalMemoryGb,
                 MaxTotalMemoryGb := .known s.MaxTotalMemoryGb,
                 IdleTimeoutMinutes := .known s.IdleTimeoutMinutes,
                 LastUpdated := .known now } ∧
        (Update equal client now stateDiags plan state).fault = none) ∧
      (HasError (immutableChecks (Append [] stateDiags) plan state) = false →
        (serviceUpdateOf equal plan state).2 = true →
        client.UpdateService state.ID.ValueString (serviceUpdateOf equal plan state).1 =
          .ok s →
        (scalingUpdateOf plan state).2 = false →
        (Update equal client now stateDiags plan state).State =
          some { ID := .known s.Id, Name := .known s.Name,
                 CloudProvider := .known s.Provider, Region := .known s.Region,
                 Tier := .known s.Tier, IdleScaling := .known s.IdleScaling,
                 IpAccessList := merged,
                 MinTotalMemoryGb := .known s.MinTotalMemoryGb,
                 MaxTotalMemoryGb := .known s.MaxTotalMemoryGb,
                 IdleTimeoutMinutes := .known s.IdleTimeoutMinutes,
                 LastUpdated := .known now } ∧
        (Update equal client now stateDiags plan state).fault = none) ∧
      (HasError planDiags = false →
        client.CreateService
          { Id := "", Name := plan.Name.ValueString,
            Provider := plan.CloudProvider.ValueString,
            Region := plan.Region.ValueString, Tier := plan.Tier.ValueString,
            IdleScaling := plan.IdleScaling.ValueBool,
            IpAccessList := plan.IpAccessList.map (fun item : IpAccessModel =>
              ({ Source := item.Source.ValueString,
                 Description := item.Description.ValueString } : IpAccess)),
            MinTotalMemoryGb := plan.MinTotalMemoryGb.ValueInt64,
            MaxTotalMemoryGb := plan.MaxTotalMemoryGb.ValueInt64,
            IdleTimeoutMinutes := plan.IdleTimeoutMinutes.ValueInt64 } = .ok s →
        (Create client now planDiags plan).State =
          some { ID := .known s.Id, Name := .known s.Name,
                 CloudProvider := .known s.Provider, Region := .known s.Region,
                 Tier := .known s.Tier, IdleScaling := .known s.IdleScaling,
                 IpAccessList := merged,
                 MinTotalMemoryGb := .known s.MinTotalMemoryGb,
                 MaxTotalMemoryGb := .known s.MaxTotalMemoryGb,
                 IdleTimeoutMinutes := .known s.IdleTimeoutMinutes,
                 LastUpdated := .known now } ∧
        (Create client now planDiags plan).fault = none) := by
  have hm := mergeIpAccessList_eq plan.IpAccessList s.IpAccessList h
  have hstore : ∀ calls diags,
      (storeSnapshot now plan calls diags (some s)).State =
        some (mergedModel s
          (s.IpAccessList.map toIpAccessModel ++ plan.IpAccessList.drop s.IpAccessList.length)
          now) ∧
      (storeSnapshot now plan calls diags (some s)).fault = none := by
    intro calls diags
    simp [storeSnapshot, hm]
  refine ⟨_, hm, ?_, ?_, ?_, ?_, ?_, ?_⟩
  · simp; omega
  · rw [List.take_append_of_le_length (by simp)]
    have : List.take s.IpAccessList.length (List.map toIpAccessModel s.IpAccessList) =
        List.map toIpAccessModel s.IpAccessList := by simp
    rw [this]
    rfl
  · rw [List.drop_append_of_le_length (by simp)]
    simp
  · intro hE hid hS2 hok
    cases hS : (serviceUpdateOf equal plan state).2 with
    | false =>
      rw [Update_of_no_identity _ _ _ _ _ _ hE hS, scalingStep_of_ok _ _ _ _ _ _ _ s hS2 hok]
      exact hstore _ _
    | true =>
      rcases hid with hf | ⟨s1, h1⟩
      · rw [hS] at hf
        exact absurd hf (by decide)
      · rw [Update_of_identity_ok _ _ _ _ _ _ s1 hE hS h1,
          scalingStep_of_ok _ _ _ _ _ _ _ s hS2 hok]
        exact hstore _ _
  · intro hE hS hok hS2
    rw [Update_of_identity_ok _ _ _ _ _ _ s hE hS hok,
      scalingStep_of_no_scaling _ _ _ _ _ _ _ hS2]
    exact hstore _ _
  · intro hE hok
    have hE2 : HasError (Append [] planDiags) = false := by
      rw [HasError_Append_nil, hE]
    have hok2 : client.CreateService
        { Id := "", Name := plan.Name.ValueString,
          Provider := plan.CloudProvider.ValueString,
          Region := plan.Region.ValueString, Tier := plan.Tier.ValueString,
          IdleScaling := plan.IdleScaling.ValueBool,
          IpAccessList := plan.IpAccessList.map toIpAccess,
          MinTotalMemoryGb := plan.MinTotalMemoryGb.ValueInt64,
          MaxTotalMemoryGb := plan.MaxTotalMemoryGb.ValueInt64,
          IdleTimeoutMinutes := plan.IdleTimeoutMinutes.ValueInt64 } = .ok s := hok
    have hrun : (Create client now planDiags plan).State =
        some (mergedModel s
          (s.IpAccessList.map toIpAccessModel ++ plan.IpAccessList.drop s.IpAccessList.length)
          now) ∧ (Create client now planDiags plan).fault = none := by
      simp [Create, hE2, hok2, hm]
    exact hrun

/-- C5: in `Update`, when the state was decoded without error, no immutable
field differs, both the identity category (name or access rules) and the
scaling category (one of the four scaling fields) are non-empty and both remote
calls succeed, exactly two remote calls are made, `UpdateService` first and
`UpdateServiceScaling` second, and the resulting state is built from the
snapshot returned by `UpdateServiceScaling`: id, name, provider, region, tier,
idle scaling, min and max memory and idle timeout are those of that snapshot,
and it exists whenever the snapshot has no more rules than the plan. -/
theorem Update_both_categories
    (equal : List IpAccessModel → List IpAccessModel → Bool) (client : Client)
    (now : String) (stateDiags : List Diagnostic) (plan state : serviceResourceModel)
    (s1 s2 : Service)
    (hdec : HasError stateDiags = false)
    (hc : plan.CloudProvider = state.CloudProvider) (hr : plan.Region = state.Region)
    (ht : plan.Tier = state.Tier)
    (hident : plan.Name ≠ state.Name ∨ equal plan.IpAccessList state.IpAccessList = false)
    (hscal : plan.IdleScaling ≠ state.IdleScaling ∨
       plan.MinTotalMemoryGb ≠ state.MinTotalMemoryGb ∨
       plan.MaxTotalMemoryGb ≠ state.MaxTotalMemoryGb ∨
       plan.IdleTimeoutMinutes ≠ state.IdleTimeoutMinutes)
    (hok1 : client.UpdateService state.ID.ValueString (serviceUpdateOf equal plan state).1 =
      .ok s1)
    (hok2 : client.UpdateServiceScaling state.ID.ValueString (scalingUpdateOf plan state).1 =
      .ok s2) :
    (Update equal client now stateDiags plan state).calls =
      [Call.UpdateService state.ID.ValueString (serviceUpdateOf equal plan state).1,
       Call.UpdateServiceScaling state.ID.ValueString (scalingUpdateOf plan state).1] ∧
    (Update equal client now stateDiags plan state).State =
      (mergeIpAccessList plan.IpAccessList s2.IpAccessList).map
        (fun merged => mergedModel s2 merged now) ∧
    (∀ m, (Update equal client now stateDiags plan state).State = some m →
      m.ID = .known s2.Id ∧ m.Name = .known s2.Name ∧ m.CloudProvider = .known s2.Provider ∧
      m.Region = .known s2.Region ∧ m.Tier = .known s2.Tier ∧
      m.IdleScaling = .known s2.IdleScaling ∧
      m.MinTotalMemoryGb = .known s2.MinTotalMemoryGb ∧
      m.MaxTotalMemoryGb = .known s2.MaxTotalMemoryGb ∧
      m.IdleTimeoutMinutes = .known s2.IdleTimeoutMinutes) ∧
    (s2.IpAccessList.length ≤ plan.IpAccessList.length →
      (Update equal client now stateDiags plan state).State =
        some (mergedModel s2
          (s2.IpAccessList.map toIpAccessModel ++ plan.IpAccessList.drop s2.IpAccessList.length)
          now) ∧
      (Update equal client now stateDiags plan state).fault = none) := by
  have hE := clean_of_same stateDiags plan state hdec hc hr ht
  have hS := (serviceChange_iff equal plan state).2 hident
  have hS2 := (scalingChange_iff plan state).2 hscal
  rw [Update_of_identity_ok _ _ _ _ _ _ s1 hE hS hok1,
    scalingStep_of_ok _ _ _ _ _ _ _ s2 hS2 hok2]
  have hstate : (storeSnapshot now plan
      ([Call.UpdateService state.ID.ValueString (serviceUpdateOf equal plan state).1] ++
        [Call.UpdateServiceScaling state.ID.ValueString (scalingUpdateOf plan state).1])
      (immutableChecks (Append [] stateDiags) plan state) (some s2)).State =
      (mergeIpAccessList plan.IpAccessList s2.IpAccessList).map
        (fun merged => mergedModel s2 merged now) := by
    unfold storeSnapshot
    simp only
    split <;> simp_all
  refine ⟨by rw [storeSnapshot_calls]; rfl, hstate, ?_, ?_⟩
  · intro m hm
    rw [hstate] at hm
    cases hmerge : mergeIpAccessList plan.IpAccessList s2.IpAccessList with
    | none => rw [hmerge] at hm; simp at hm
    | some merged =>
      rw [hmerge] at hm
      simp only [Option.map_some', Option.some.injEq] at hm
      subst hm
      simp [mergedModel]
  · intro hlen
    have hm := mergeIpAccessList_eq plan.IpAccessList s2.IpAccessList hlen
    simp [storeSnapshot, hm]

/-- C7: in `Update`, when the state was decoded without error and differs from
the plan in min_total_memory_gb only (and `equal` holds of the access list with
itself), `UpdateService` is never called and `UpdateServiceScaling` is called
exactly once, with a request whose MinTotalMemoryGb is the value of the plan
and whose other fields are unset (IdleScaling nil, the two other integers at
their zero value). -/
theorem Update_only_min_memory
    (equal : List IpAccessModel → List IpAccessModel → Bool) (client : Client)
    (now : String) (stateDiags : List Diagnostic) (plan : serviceResourceModel)
    (observedMin : TfValue Int)
    (hdec : HasError stateDiags = false)
    (hmin : plan.MinTotalMemoryGb ≠ observedMin)
    (heq : equal plan.IpAccessList plan.IpAccessList = true) :
    (Update equal client now stateDiags plan
        { plan with MinTotalMemoryGb := observedMin }).calls =
      [Call.UpdateServiceScaling plan.ID.ValueString
        { IdleScaling := none, MinTotalMemoryGb := plan.MinTotalMemoryGb.ValueInt64,
          MaxTotalMemoryGb := 0, IdleTimeoutMinutes := 0 }] ∧
    (∀ id u, Call.UpdateService id u ∉
      (Update equal client now stateDiags plan
        { plan with MinTotalMemoryGb := observedMin }).calls) := by
  have hE := clean_of_same stateDiags plan { plan with MinTotalMemoryGb := observedMin }
    hdec rfl rfl rfl
  have hS : (serviceUpdateOf equal plan { plan with MinTotalMemoryGb := observedMin }).2 =
      false := by
    simp [serviceUpdateOf, heq]
  have hS2 : scalingUpdateOf plan { plan with MinTotalMemoryGb := observedMin } =
      ({ IdleScaling := none, MinTotalMemoryGb := plan.MinTotalMemoryGb.ValueInt64,
         MaxTotalMemoryGb := 0, IdleTimeoutMinutes := 0 }, true) := by
    simp [scalingUpdateOf, hmin]
  have hcalls : (Update equal client now stateDiags plan
        { plan with MinTotalMemoryGb := observedMin }).calls =
      [Call.UpdateServiceScaling plan.ID.ValueString
        { IdleScaling := none, MinTotalMemoryGb := plan.MinTotalMemoryGb.ValueInt64,
          MaxTotalMemoryGb := 0, IdleTimeoutMinutes := 0 }] := by
    rw [Update_of_no_identity _ _ _ _ _ _ hE hS, scalingStep_calls, hS2]
    simp
  refine ⟨hcalls, ?_⟩
  intro id u hm
  rw [hcalls] at hm
  simp at hm

/-! ### The keyed set difference and the access-rule delta -/

/-- C8: for access-rule lists `old` and `new`, `diffArrays old new source`
returns `(added, removed)` where every key of `added` is in `new` and not in
`old`, every key of `removed` is in `old` and not in `new`, and adding `added`
to `old` and then removing `removed` by key gives a collection with the key set
of `new` (uniqueness of the sources is not even needed). On
old = [1.2.3.0/24, 9.9.9.9/32] and new = [1.2.3.0/24] the result is
added = [] and removed = [9.9.9.9/32]. -/
theorem diffArrays_keyed_set_diff (old new : List IpAccess) :
    (∀ a ∈ (diffArrays old new (fun a => a.Source)).1,
      a.Source ∈ new.map (fun a => a.Source) ∧ a.Source ∉ old.map (fun a => a.Source)) ∧
    (∀ k ∈ (diffArrays old new (fun a => a.Source)).2,
      k ∈ old.map (fun a => a.Source) ∧ k ∉ new.map (fun a => a.Source)) ∧
    (∀ k, k ∈ (applyDelta old (fun a => a.Source)
          (diffArrays old new (fun a => a.Source)).1
          (diffArrays old new (fun a => a.Source)).2).map (fun a => a.Source) ↔
        k ∈ new.map (fun a => a.Source)) ∧
    diffArrays
      [{ Source := "1.2.3.0/24", Description := "" },
       { Source := "9.9.9.9/32", Description := "" }]
      [{ Source := "1.2.3.0/24", Description := "" }] (fun a : IpAccess => a.Source) =
      ([], ["9.9.9.9/32"]) := by
  refine ⟨?_, ?_, ?_, by decide⟩
  · intro a ha
    simp only [diffArrays, List.mem_filter, decide_eq_true_eq] at ha
    exact ⟨List.mem_map_of_mem _ ha.1, ha.2⟩
  · intro k hk
    simp only [diffArrays, List.mem_filter, decide_eq_true_eq] at hk
    exact hk
  · intro k
    have hrem : ∀ k, k ∈ (diffArrays old new (fun a => a.Source)).2 ↔
        (k ∈ old.map (fun a => a.Source) ∧ k ∉ new.map (fun a => a.Source)) := by
      intro k
      simp only [diffArrays, List.mem_filter, decide_eq_true_eq]
    have hadd : ∀ a, a ∈ (diffArrays old new (fun a => a.Source)).1 ↔
        (a ∈ new ∧ a.Source ∉ old.map (fun a => a.Source)) := by
      intro a
      simp only [diffArrays, List.mem_filter, decide_eq_true_eq]
    have hmem : ∀ a, a ∈ applyDelta old (fun a => a.Source)
          (diffArrays old new (fun a => a.Source)).1
          (diffArrays old new (fun a => a.Source)).2 ↔
        ((a ∈ old ∨ a ∈ (diffArrays old new (fun a => a.Source)).1) ∧
          a.Source ∉ (diffArrays old new (fun a => a.Source)).2) := by
      intro a
      simp only [applyDelta, List.mem_filter, List.mem_append, decide_eq_true_eq]
    constructor
    · intro hk
      obtain ⟨a, ha, hak⟩ := List.mem_map.1 hk
      subst hak
      obtain ⟨hin, hkeep⟩ := (hmem a).1 ha
      rcases hin with h | h
      · by_contra hn
        exact hkeep ((hrem _).2 ⟨List.mem_map_of_mem _ h, hn⟩)
      · exact List.mem_map_of_mem _ ((hadd a).1 h).1
    · intro hk
      obtain ⟨b, hb, hbk⟩ := List.mem_map.1 hk
      subst hbk
      by_cases hold : b.Source ∈ old.map (fun a => a.Source)
      · obtain ⟨a, ha, hab⟩ := List.mem_map.1 hold
        have hab2 : a.Source = b.Source := hab
        have : a ∈ applyDelta old (fun a => a.Source)
            (diffArrays old new (fun a => a.Source)).1
            (diffArrays old new (fun a => a.Source)).2 := by
          refine (hmem a).2 ⟨Or.inl ha, fun hr => ((hrem _).1 hr).2 ?_⟩
          rw [hab2]
          exact hk
        have h2 := List.mem_map_of_mem (fun a : IpAccess => a.Source) this
        simpa [hab2] using h2
      · have : b ∈ applyDelta old (fun a => a.Source)
            (diffArrays old new (fun a => a.Source)).1
            (diffArrays old new (fun a => a.Source)).2 :=
          (hmem b).2 ⟨Or.inr ((hadd b).2 ⟨hb, hold⟩), fun hr => hold ((hrem _).1 hr).1⟩
        exact List.mem_map_of_mem _ this

/-- C9 (amended): in `Update`, the access-rule delta of the identity request
(ServiceUpdate.IpAccessList) is populated if and only if `equal` returns false
on the desired and observed access rules; it then carries the added and removed
lists of the diff of the observed against the desired rules, whatever they are,
and `serviceChange` is set. -/
theorem serviceUpdateOf_delta (equal : List IpAccessModel → List IpAccessModel → Bool)
    (plan state : serviceResourceModel) :
    (serviceUpdateOf equal plan state).1.IpAccessList =
      (if equal plan.IpAccessList state.IpAccessList = true then none
       else some
        { Add := (diffArrays (state.IpAccessList.map toIpAccess)
            (plan.IpAccessList.map toIpAccess) (fun a => a.Source)).1
          Remove := (diffArrays (state.IpAccessList.map toIpAccess)
            (plan.IpAccessList.map toIpAccess) (fun a => a.Source)).2 }) ∧
    ((serviceUpdateOf equal plan state).1.IpAccessList.isSome = true ↔
      equal plan.IpAccessList state.IpAccessList = false) ∧
    (serviceUpdateOf equal plan state).2 =
      (decide (plan.Name ≠ state.Name) || !equal plan.IpAccessList state.IpAccessList) := by
  unfold serviceUpdateOf
  by_cases hn : plan.Name = state.Name <;>
  cases he : equal plan.IpAccessList state.IpAccessList <;>
  simp [hn, he]

/-- C9 (counterexample): when only the description of a rule is edited, the diff
of the observed against the desired rules has an empty added list and an empty
removed list, yet the delta of the identity request is populated and the
identity call is issued for the access rules alone. -/
theorem serviceUpdateOf_delta_populated_on_empty_diff :
    diffArrays (sampleState.IpAccessList.map toIpAccess)
      (samplePlanRelabelled.IpAccessList.map toIpAccess) (fun a => a.Source) = ([], []) ∧
    (serviceUpdateOf equal samplePlanRelabelled sampleState).1.IpAccessList =
      some { Add := [], Remove := [] } ∧
    (serviceUpdateOf equal samplePlanRelabelled sampleState).2 = true ∧
    (Update equal clientOk "now" [] samplePlanRelabelled sampleState).calls =
      [Call.UpdateService "svc-1"
        { Name := "", IpAccessList := some { Add := [], Remove := [] } }] := by
  decide

/-! ### Runs at concrete inputs -/

/-- C3 (the code at the failing input): with a plan equal to the state, `Update`
makes no remote call, then dereferences the nil snapshot at line 350: the run
ends in a nil pointer fault and the state is not set. -/
theorem Update_noop_nil_dereference :
    equal sampleState.IpAccessList sampleState.IpAccessList = true ∧
    (Update equal clientOk "now" [] sampleState sampleState).calls = [] ∧
    (Update equal clientOk "now" [] sampleState sampleState).fault =
      some Fault.nilPointerDereference ∧
    (Update equal clientOk "now" [] sampleState sampleState).State = none := by
  decide

/-- C4 (counterexample): the identity call succeeds with a snapshot, the scaling
call fails; the response holds the scaling error only and no state is set, so
the snapshot returned by the identity call is not carried by the outcome. -/
theorem Update_scaling_failure_carries_no_snapshot :
    clientScalingDown.UpdateService "svc-1"
      { Name := "svc", IpAccessList := some { Add := [], Remove := ["9.9.9.9/32"] } } =
      .ok sampleSnapshot1 ∧
    (Update equal clientScalingDown "now" [] samplePlan sampleState).calls =
      [Call.UpdateService "svc-1"
        { Name := "svc", IpAccessList := some { Add := [], Remove := ["9.9.9.9/32"] } },
       Call.UpdateServiceScaling "svc-1"
        { IdleScaling := none, MinTotalMemoryGb := 32, MaxTotalMemoryGb := 0,
          IdleTimeoutMinutes := 0 }] ∧
    (Update equal clientScalingDown "now" [] samplePlan sampleState).Diagnostics =
      [{ severity := .Error, path := none,
         summary := "Error Updating ClickHouse Service Scaling",
         detail := "Could not update service scaling, unexpected error: 503" }] ∧
    (Update equal clientScalingDown "now" [] samplePlan sampleState).State = none ∧
    ¬ (∃ merged, (Update equal clientScalingDown "now" [] samplePlan sampleState).State =
        some (mergedModel sampleSnapshot1 merged "now")) := by
  refine ⟨rfl, by decide, by decide, by decide, ?_⟩
  rintro ⟨merged, h⟩
  have hnone : (Update equal clientScalingDown "now" [] samplePlan sampleState).State = none := by
    decide
  rw [hnone] at h
  exact Option.noConfusion h

/-! ### Witnesses -/

/-- Witness of C1 at a plan that changes the tier only. -/
theorem Update_immutable_violation_aborts_witness :
    (samplePlanRetiered.CloudProvider ≠ sampleState.CloudProvider ∨
      samplePlanRetiered.Region ≠ sampleState.Region ∨
      samplePlanRetiered.Tier ≠ sampleState.Tier) ∧
    (Update equal clientOk "now" [] samplePlanRetiered sampleState).calls = [] ∧
    (Update equal clientOk "now" [] samplePlanRetiered sampleState).State = none ∧
    (Update equal clientOk "now" [] samplePlanRetiered sampleState).fault = none ∧
    HasError (Update equal clientOk "now" [] samplePlanRetiered sampleState).Diagnostics =
      true :=
  ⟨Or.inr (Or.inr (by decide)),
   Update_immutable_violation_aborts equal clientOk "now" [] samplePlanRetiered sampleState
     (Or.inr (Or.inr (by decide)))⟩

/-- Witness of C2 at a plan that changes provider, region and tier: three errors. -/
theorem Update_invalid_update_errors_witness :
    (∀ d ∈ ([] : List Diagnostic), d.summary ≠ "Invalid Update") ∧
    (invalidUpdates
      (Update equal clientOk "now" [] samplePlanMoved sampleState).Diagnostics).length = 3 :=
  ⟨by simp,
   (Update_invalid_update_errors equal clientOk "now" [] samplePlanMoved sampleState
     (by simp)).2.trans (by decide)⟩

/-- Witness of C4 (amended) at the sample plan with a failing scaling call. -/
theorem Update_scaling_failure_after_identity_witness :
    clientScalingDown.UpdateService "svc-1"
      { Name := "svc", IpAccessList := some { Add := [], Remove := ["9.9.9.9/32"] } } =
      .ok sampleSnapshot1 ∧
    clientScalingDown.UpdateServiceScaling "svc-1"
      { IdleScaling := none, MinTotalMemoryGb := 32, MaxTotalMemoryGb := 0,
        IdleTimeoutMinutes := 0 } = .error "503" ∧
    (Update equal clientScalingDown "now" [] samplePlan sampleState).calls =
      [Call.UpdateService "svc-1"
        { Name := "svc", IpAccessList := some { Add := [], Remove := ["9.9.9.9/32"] } },
       Call.UpdateServiceScaling "svc-1"
        { IdleScaling := none, MinTotalMemoryGb := 32, MaxTotalMemoryGb := 0,
          IdleTimeoutMinutes := 0 }] ∧
    (Update equal clientScalingDown "now" [] samplePlan sampleState).State = none :=
  have h := Update_scaling_failure_after_identity equal clientScalingDown "now" []
    samplePlan sampleState "svc-1"
    { Name := "svc", IpAccessList := some { Add := [], Remove := ["9.9.9.9/32"] } }
    sampleSnapshot1 "svc-1"
    { IdleScaling := none, MinTotalMemoryGb := 32, MaxTotalMemoryGb := 0,
      IdleTimeoutMinutes := 0 } "503" (by decide) rfl (by decide) rfl
  ⟨rfl, rfl, h.1, h.2.2.1⟩

/-- Witness of C5 at the sample plan, which changes the name, the rules and the memory. -/
theorem Update_both_categories_witness :
    HasError [] = false ∧
    samplePlan.Name ≠ sampleState.Name ∧
    samplePlan.MinTotalMemoryGb ≠ sampleState.MinTotalMemoryGb ∧
    (Update equal clientOk "now" [] samplePlan sampleState).calls =
      [Call.UpdateService "svc-1"
        { Name := "svc", IpAccessList := some { Add := [], Remove := ["9.9.9.9/32"] } },
       Call.UpdateServiceScaling "svc-1"
        { IdleScaling := none, MinTotalMemoryGb := 32, MaxTotalMemoryGb := 0,
          IdleTimeoutMinutes := 0 }] ∧
    (Update equal clientOk "now" [] samplePlan sampleState).State =
      some (mergedModel sampleSnapshot2
        [{ Source := .known "1.2.3.0/24", Description := .known "office" }] "now") :=
  have h := Update_both_categories equal clientOk "now" [] samplePlan sampleState
    sampleSnapshot1 sampleSnapshot2 rfl rfl rfl rfl (Or.inl (by decide))
    (Or.inr (Or.inl (by decide))) rfl rfl
  ⟨rfl, by decide, by decide, h.1, (h.2.2.2 (by decide)).1⟩

/-- Witness of C6 at the sample plan with a failing identity call. -/
theorem Update_identity_failure_stops_witness :
    clientIdentityDown.UpdateService "svc-1"
      { Name := "svc", IpAccessList := some { Add := [], Remove := ["9.9.9.9/32"] } } =
      .error "503" ∧
    (Update equal clientIdentityDown "now" [] samplePlan sampleState).calls =
      [Call.UpdateService "svc-1"
        { Name := "svc", IpAccessList := some { Add := [], Remove := ["9.9.9.9/32"] } }] ∧
    (Update equal clientIdentityDown "now" [] samplePlan sampleState).State = none :=
  have h := Update_identity_failure_stops equal clientIdentityDown "now" []
    samplePlan sampleState "svc-1"
    { Name := "svc", IpAccessList := some { Add := [], Remove := ["9.9.9.9/32"] } }
    "503" (by decide) rfl
  ⟨rfl, h.1, h.2.2.2.2.1⟩

/-- Witness of C7 at a state that differs from the sample plan in the minimum memory only. -/
theorem Update_only_min_memory_witness :
    HasError [] = false ∧
    samplePlan.MinTotalMemoryGb ≠ TfValue.known 24 ∧
    equal samplePlan.IpAccessList samplePlan.IpAccessList = true ∧
    (Update equal clientOk "now" [] samplePlan
        { samplePlan with MinTotalMemoryGb := .known 24 }).calls =
      [Call.UpdateServiceScaling "svc-1"
        { IdleScaling := none, MinTotalMemoryGb := 32, MaxTotalMemoryGb := 0,
          IdleTimeoutMinutes := 0 }] :=
  have h := Update_only_min_memory equal clientOk "now" [] samplePlan (.known 24)
    rfl (by decide) (by decide)
  ⟨rfl, by decide, by decide, h.1⟩

/-- Witness of C10 at a snapshot with the single rule 10.0.0.0/8 (vpn) merged
into a plan with two rules: the first entry is overwritten, the second kept, in
`Update` (identity call only) and in `Create`. -/
theorem Update_Create_merge_in_bounds_witness :
    sampleSnapshotVpn.IpAccessList.length ≤ samplePlanRelabelled.IpAccessList.length ∧
    mergeIpAccessList samplePlanRelabelled.IpAccessList sampleSnapshotVpn.IpAccessList =
      some [{ Source := .known "10.0.0.0/8", Description := .known "vpn" },
            { Source := .known "9.9.9.9/32", Description := .known "dns" }] ∧
    (Update equal clientVpn "now" [] samplePlanRelabelled sampleState).State =
      some { ID := .known "svc-1", Name := .known "svc-old", CloudProvider := .known "aws",
             Region := .known "us-east-1", Tier := .known "production",
             IdleScaling := .known true,
             IpAccessList :=
               [{ Source := .known "10.0.0.0/8", Description := .known "vpn" },
                { Source := .known "9.9.9.9/32", Description := .known "dns" }],
             MinTotalMemoryGb := .known 24, MaxTotalMemoryGb := .known 48,
             IdleTimeoutMinutes := .known 5, LastUpdated := .known "now" } ∧
    (Update equal clientVpn "now" [] samplePlanRelabelled sampleState).fault = none ∧
    (Update equal clientVpn "now" [] samplePlanRelabelledResized sampleState).State =
      some { ID := .known "svc-1", Name := .known "svc-old", CloudProvider := .known "aws",
             Region := .known "us-east-1", Tier := .known "production",
             IdleScaling := .known true,
             IpAccessList :=
               [{ Source := .known "10.0.0.0/8", Description := .known "vpn" },
                { Source := .known "9.9.9.9/32", Description := .known "dns" }],
             MinTotalMemoryGb := .known 24, MaxTotalMemoryGb := .known 48,
             IdleTimeoutMinutes := .known 5, LastUpdated := .known "now" } ∧
    (Create clientVpn "now" [] samplePlanRelabelled).State =
      some { ID := .known "svc-1", Name := .known "svc-old", CloudProvider := .known "aws",
             Region := .known "us-east-1", Tier := .known "production",
             IdleScaling := .known true,
             IpAccessList :=
               [{ Source := .known "10.0.0.0/8", Description := .known "vpn" },
                { Source := .known "9.9.9.9/32", Description := .known "dns" }],
             MinTotalMemoryGb := .known 24, MaxTotalMemoryGb := .known 48,
             IdleTimeoutMinutes := .known 5, LastUpdated := .known "now" } ∧
    (Create clientVpn "now" [] samplePlanRelabelled).fault = none := by
  obtain ⟨merged, hm, _, _, _, _, hU, hC⟩ :=
    Update_Create_merge_in_bounds equal clientVpn "now" [] [] samplePlanRelabelled
      sampleState sampleSnapshotVpn (by decide)
  have hval : mergeIpAccessList samplePlanRelabelled.IpAccessList
      sampleSnapshotVpn.IpAccessList =
      some [{ Source := .known "10.0.0.0/8", Description := .known "vpn" },
            { Source := .known "9.9.9.9/32", Description := .known "dns" }] := by decide
  have hmerged : merged =
      [{ Source := .known "10.0.0.0/8", Description := .known "vpn" },
       { Source := .known "9.9.9.9/32", Description := .known "dns" }] :=
    Option.some.inj (hm.symm.trans hval)
  subst hmerged
  have hu := hU (by decide) (by decide) rfl (by decide)
  have hc := hC rfl rfl
  obtain ⟨merged2, hm2, _, _, _, hS, _, _⟩ :=
    Update_Create_merge_in_bounds equal clientVpn "now" [] [] samplePlanRelabelledResized
      sampleState sampleSnapshotVpn (by decide)
  have hmerged2 : merged2 =
      [{ Source := .known "10.0.0.0/8", Description := .known "vpn" },
       { Source := .known "9.9.9.9/32", Description := .known "dns" }] :=
    Option.some.inj (hm2.symm.trans (by decide))
  subst hmerged2
  have hs := hS (by decide) (Or.inr ⟨sampleSnapshotVpn, rfl⟩) (by decide) rfl
  exact ⟨by decide, hval, hu.1, hu.2, hs.1, hc.1, hc.2⟩

end Clickhouse
